import Mathlib

/-
  Verification of the BingoBackend web application.

  Shallow embedding of the data model (cards/models.py, auth_extension/models.py,
  home/models.py), the form and serializer validation (cards/forms.py,
  api/serializers.py, home/forms.py) and the view logic (cards/views.py,
  auth_extension/views.py, api/views.py, api/viewsets.py, home/views.py).

  Database rows are Lean structures; the database is a list of rows; views are
  state transformers on those lists.  The framework pieces the views lean on
  (transaction.atomic, LoginRequiredMixin, DRF permission classes, the inline
  formset machinery) are embedded at the point of use, following their
  documented semantics.
-/

/-! ## Data model -/

/-- django.contrib.auth.models.User (the fields the code reads). -/
structure AuthUser where
  pk : Nat
  username : String
  is_staff : Bool := false
  deriving Repr, DecidableEq

/-- cards/models.py BingoCard.  `pk` is the implicit autoincrement primary key.
`creator` is the FK to the User row.  The Python field `private` is a Lean
keyword, hence the guillemets. -/
structure BingoCard where
  pk : Nat
  title : String
  slug : String := ""
  free_space : String := "Free Space"
  created_date : Nat
  creator : Nat
  «private» : Bool := false
  deriving Repr, DecidableEq

/-- cards/models.py BingoCardSquare.  `card` is the FK to the BingoCard row. -/
structure BingoCardSquare where
  pk : Nat
  text : String
  card : Nat
  created_date : Nat := 0
  deriving Repr, DecidableEq

/-- auth_extension/models.py UserProfile.  `user` is the one-to-one related
User object. -/
structure UserProfile where
  pk : Nat
  user : AuthUser
  created_date : Nat := 0
  slug : String := ""
  picture : String := ""
  website : String := ""
  «private» : Bool := false
  about_me : String := ""
  deriving Repr, DecidableEq

/-- home/models.py Contact (fields per ContactSerializer). -/
structure Contact where
  pk : Nat
  title : String := ""
  facebook : String := ""
  github : String := ""
  linkedin : String := ""
  twitter : String := ""
  email : String := ""
  contact_date : Nat := 0
  deriving Repr, DecidableEq

/-! ## django.template.defaultfilters.slugify

The models call Django's `slugify`: normalize to ASCII (drop non-ASCII
characters), delete every character that is not a word character, whitespace
or a hyphen, strip surrounding whitespace, lowercase, and collapse every run
of hyphens/whitespace to a single hyphen. -/

/-- A regex word character: alphanumeric or underscore. -/
def isWordChar (c : Char) : Bool :=
  c.isAlpha || c.isDigit || c = '_'

/-- Characters kept by `re.sub(r'[^\w\s-]', '', value)`. -/
def keptBySub (c : Char) : Bool :=
  isWordChar c || c.isWhitespace || c = '-'

/-- Python `str.strip()`: drop leading and trailing whitespace. -/
def stripWs (l : List Char) : List Char :=
  ((l.dropWhile Char.isWhitespace).reverse.dropWhile Char.isWhitespace).reverse

/-- Is the character matched by `[-\s]`? -/
def isDashOrWs (c : Char) : Bool :=
  c = '-' || c.isWhitespace

/-- `re.sub(r'[-\s]+', '-', value)`: collapse each run of hyphens/whitespace
to one hyphen.  The flag records whether the previous character was in a run. -/
def collapseRuns : Bool → List Char → List Char
  | _, [] => []
  | inRun, c :: rest =>
    if isDashOrWs c then
      if inRun then collapseRuns true rest
      else '-' :: collapseRuns true rest
    else c :: collapseRuns false rest

/-- django.template.defaultfilters.slugify (allow_unicode=False). -/
def slugify (value : String) : String :=
  let ascii := value.data.filter (fun c => c.toNat < 128)
  let cleaned := ((ascii.filter keptBySub) |> stripWs).map Char.toLower
  String.mk (collapseRuns false cleaned)

/-! ## Model save methods (claim C10) -/

/-- cards/models.py BingoCard.save: "Slugifies title automatically when
BingoCard is saved"; the slug is assigned on every call before the row is
written. -/
def BingoCard.save (c : BingoCard) : BingoCard :=
  { c with slug := slugify c.title }

/-- auth_extension/models.py UserProfile.save: "Slugifies username
automatically when UserProfile is saved". -/
def UserProfile.save (p : UserProfile) : UserProfile :=
  { p with slug := slugify p.user.username }

/-! ## api/serializers.py BingoCardSerializer (claim C3) -/

/-- One entry of the submitted `squares` list (BingoCardSquareSerializer's
writable field is `text`). -/
structure SquareData where
  text : String
  deriving Repr, DecidableEq

/-- BingoCardSerializer.validate_squares: "Ensure exactly 24 squares are
present." -/
def validate_squares (value : List SquareData) : Except String (List SquareData) :=
  if value.length ≠ 24 then
    Except.error "Must have exactly 24 squares"
  else
    Except.ok value

/-! ## cards/views.py CardDetailView (claim C2) -/

/-- An entry of `context['squares']`: the Python list holds BingoCardSquare
objects, and `insert(12, self.object.free_space)` puts a bare string among
them. -/
inductive ContextEntry where
  | square (s : BingoCardSquare)
  | text (t : String)
  deriving Repr, DecidableEq

/-- CardDetailView.get_context_data.  `shuffle` stands for the permutation
`random.shuffle` would apply for the current RNG state.  The code runs
`random.shuffle(list(square_set))` — shuffling a fresh copy whose value is
discarded — and then builds `context['squares']` from `list(square_set)`
again, inserting `free_space` at index 12. -/
def get_context_data (shuffle : List BingoCardSquare → List BingoCardSquare)
    (card : BingoCard) (square_set : List BingoCardSquare) : List ContextEntry :=
  let _ := shuffle square_set
  let squares := square_set.map ContextEntry.square
  squares.insertIdx 12 (ContextEntry.text card.free_space)

/-- A concrete card with 24 squares used to evaluate the detail view. -/
def sampleCard : BingoCard :=
  { pk := 1, title := "sample", created_date := 0, creator := 1 }

/-- The 24 squares of `sampleCard`, in database order. -/
def sampleSquares : List BingoCardSquare :=
  (List.range 24).map (fun i => { pk := i + 1, text := toString i, card := 1 })

/-! ## Theorems for claims C10, C3, C2 -/

/-- C10: after every save of a BingoCard its slug equals the slugified title,
and after every save of a UserProfile its slug equals the slugified username;
the slug is recomputed on each save, so saving again after a title or
username change always yields the fresh slug. -/
theorem slug_recomputed_on_every_save :
    ∀ (c : BingoCard) (t : String) (p : UserProfile) (u : String),
      (c.save).slug = slugify c.title
      ∧ (({ c.save with title := t }).save).slug = slugify t
      ∧ (p.save).slug = slugify p.user.username
      ∧ (({ p.save with user := { p.user with username := u } }).save).slug
          = slugify u := by
  intro c t p u
  refine ⟨rfl, rfl, rfl, rfl⟩

/-- C3: validate_squares raises (returns an error) exactly when the submitted
list does not have 24 entries, and returns any 24-entry list unchanged. -/
theorem validate_squares_exactly_24 :
    ∀ value : List SquareData,
      ((∃ e, validate_squares value = Except.error e) ↔ value.length ≠ 24)
      ∧ (value.length = 24 → validate_squares value = Except.ok value) := by
  intro value
  constructor
  · constructor
    · rintro ⟨e, he⟩ hlen
      simp [validate_squares, hlen] at he
    · intro hlen
      exact ⟨"Must have exactly 24 squares", by simp [validate_squares, hlen]⟩
  · intro hlen
    simp [validate_squares, hlen]

/-- Witness for C3 at a concrete 24-entry list. -/
theorem validate_squares_exactly_24_witness :
    validate_squares (List.replicate 24 ⟨"x"⟩)
      = Except.ok (List.replicate 24 ⟨"x"⟩) :=
  (validate_squares_exactly_24 (List.replicate 24 ⟨"x"⟩)).2 (by simp)

/-- C2 (bug evidence): the context built by CardDetailView.get_context_data
does not depend on the permutation `random.shuffle` produces — the shuffled
copy is discarded — so for a shuffle outcome that actually rearranges the 24
sample squares (here: reversal) the context still lists the squares in
database order with free_space at index 12, and differs from the context the
claim describes (the shuffled squares with free_space at index 12). -/
theorem cardDetail_context_ignores_shuffle :
    (∀ (f g : List BingoCardSquare → List BingoCardSquare)
        (card : BingoCard) (sq : List BingoCardSquare),
        get_context_data f card sq = get_context_data g card sq)
    ∧ get_context_data List.reverse sampleCard sampleSquares
        = (sampleSquares.map ContextEntry.square).insertIdx 12
            (ContextEntry.text sampleCard.free_space)
    ∧ sampleSquares.reverse ≠ sampleSquares
    ∧ get_context_data List.reverse sampleCard sampleSquares
        ≠ (sampleSquares.reverse.map ContextEntry.square).insertIdx 12
            (ContextEntry.text sampleCard.free_space) := by
  refine ⟨fun f g card sq => rfl, rfl, by decide, by decide⟩

/-! ## cards/views.py CardListView (claim C5) -/

/-- The ordering of `BingoCard.objects.order_by('-created_date')`: most
recently created first. -/
def createdDesc (a b : BingoCard) : Prop :=
  b.created_date ≤ a.created_date

instance : DecidableRel createdDesc :=
  fun a b => Nat.decLe b.created_date a.created_date

instance : IsTotal BingoCard createdDesc :=
  ⟨fun a b => Nat.le_total b.created_date a.created_date⟩

instance : IsTrans BingoCard createdDesc :=
  ⟨fun _ _ _ hab hbc => Nat.le_trans hbc hab⟩

/-- CardListView.get_queryset: start from the class queryset
`BingoCard.objects.order_by('-created_date')`; return it whole when the
requester is authenticated, else `queryset.filter(private=False)`. -/
def CardListView_get_queryset (is_authenticated : Bool)
    (db : List BingoCard) : List BingoCard :=
  let queryset := List.insertionSort createdDesc db
  if is_authenticated then
    queryset
  else
    queryset.filter (fun c => c.«private» == false)

/-! ## auth_extension/views.py ProfileRedirectView (claims C4, C6) -/

/-- The pages the profile views can land a visitor on. -/
inductive ProfileRedirect where
  | detail (pk : Nat)
  | permission_denied
  | login_required
  deriving Repr, DecidableEq

/-- ProfileRedirectView.get_redirect_url: look the profile up by pk
(`UserProfile.objects.get(pk=pk)`, `none` when the row is missing); public
profiles and the viewer's own profile redirect to
`profile.get_absolute_url()` (the detail page for `profile.pk`), any other
private profile redirects to the permission-denied page.
`userprofile_pk` is `self.userprofile_pk`, set by `dispatch` from
`request.user.profile.pk`. -/
def get_redirect_url (db : List UserProfile) (userprofile_pk : Nat)
    (pk : Nat) : Option ProfileRedirect :=
  match db.find? (fun p => p.pk == pk) with
  | none => none
  | some profile =>
    if profile.«private» = false then
      some (ProfileRedirect.detail profile.pk)
    else if profile.pk == userprofile_pk then
      some (ProfileRedirect.detail profile.pk)
    else
      some ProfileRedirect.permission_denied

/-- The whole ProfileRedirectView request path: LoginRequiredMixin sends
unauthenticated visitors to `login_url = '/profile/login-required/'`;
`dispatch` records the authenticated viewer's profile pk (the reverse
one-to-one lookup `request.user.profile`); then `get_redirect_url` runs. -/
def profile_redirect_view (db : List UserProfile) (is_authenticated : Bool)
    (viewer : AuthUser) (pk : Nat) : Option ProfileRedirect :=
  if is_authenticated = false then
    some ProfileRedirect.login_required
  else
    match db.find? (fun p => p.user.pk == viewer.pk) with
    | none => none
    | some vp => get_redirect_url db vp.pk pk

/-! ## cards/views.py CardDetailView.get (claim C6) -/

/-- Responses of CardDetailView.get. -/
inductive CardResponse where
  | rendered (pk : Nat)
  | redirect_unauthorized
  deriving Repr, DecidableEq

/-- CardDetailView.get: redirect to `auth_extension:unauthorized` when an
unauthenticated visitor requests a private card, else render the card. -/
def CardDetailView_get (is_authenticated : Bool) (card : BingoCard) :
    CardResponse :=
  if card.«private» && !is_authenticated then
    CardResponse.redirect_unauthorized
  else
    CardResponse.rendered card.pk

/-! ## find?/Nodup helper lemmas -/

/-- Looking a row up by a key that is Nodup across the table finds exactly
the row. -/
theorem find?_key_eq_some {α : Type} (key : α → Nat) (l : List α) (a : α)
    (ha : a ∈ l) (hnd : (l.map key).Nodup) :
    l.find? (fun x => key x == key a) = some a := by
  induction l with
  | nil => cases ha
  | cons x xs ih =>
    rw [List.map_cons, List.nodup_cons] at hnd
    rcases List.mem_cons.mp ha with h | h
    · subst h
      simp [List.find?]
    · have hne : key x ≠ key a := by
        intro hcontra
        exact hnd.1 (hcontra ▸ List.mem_map_of_mem key h)
      have hx : (key x == key a) = false := beq_false_of_ne hne
      rw [List.find?]
      rw [hx]
      exact ih h hnd.2

/-- Two rows of a table agreeing on a Nodup key are the same row. -/
theorem key_inj_of_nodup {α : Type} (key : α → Nat) (l : List α)
    (hnd : (l.map key).Nodup) (a b : α) (ha : a ∈ l) (hb : b ∈ l)
    (h : key a = key b) : a = b := by
  induction l with
  | nil => cases ha
  | cons x xs ih =>
    rw [List.map_cons, List.nodup_cons] at hnd
    rcases List.mem_cons.mp ha with h1 | h1 <;>
      rcases List.mem_cons.mp hb with h2 | h2
    · rw [h1, h2]
    · exact absurd (h ▸ List.mem_map_of_mem key h2) (h1 ▸ hnd.1)
    · exact absurd (h ▸ List.mem_map_of_mem key h1) (h2 ▸ hnd.1).elim
    · exact ih hnd.2 h1 h2

/-! ## Theorems for claims C5, C4, C6 -/

/-- C5: the card list queryset contains every card (sorted most recently
created first) for an authenticated requester, and exactly the cards whose
private flag is False for an unauthenticated requester. -/
theorem cardList_queryset_visibility (db : List BingoCard)
    (is_authenticated : Bool) :
    (is_authenticated = true →
        (∀ c, c ∈ CardListView_get_queryset is_authenticated db ↔ c ∈ db)
        ∧ List.Sorted createdDesc (CardListView_get_queryset is_authenticated db))
    ∧ (is_authenticated = false →
        ∀ c, c ∈ CardListView_get_queryset is_authenticated db
          ↔ c ∈ db ∧ c.«private» = false) := by
  constructor
  · intro hauth
    subst hauth
    constructor
    · intro c
      exact (List.perm_insertionSort createdDesc db).mem_iff
    · exact List.sorted_insertionSort createdDesc db
  · intro hauth c
    subst hauth
    have hunfold : CardListView_get_queryset false db
        = (List.insertionSort createdDesc db).filter
            (fun c => c.«private» == false) := rfl
    rw [hunfold, List.mem_filter,
      (List.perm_insertionSort createdDesc db).mem_iff]
    simp

/-- Two concrete cards for evaluating the list and detail views. -/
def cardOld : BingoCard :=
  { pk := 2, title := "older public", created_date := 5, creator := 1 }

/-- A concrete private card created later than `cardOld`. -/
def cardNew : BingoCard :=
  { pk := 3, title := "newer but private", created_date := 9, creator := 1,
    «private» := true }

/-- Witness for C5: on a concrete two-card table, an authenticated requester
sees both cards sorted newest-first, and an unauthenticated requester sees
exactly the public one. -/
theorem cardList_queryset_visibility_witness :
    CardListView_get_queryset true [cardOld, cardNew] = [cardNew, cardOld]
    ∧ (cardNew ∈ CardListView_get_queryset true [cardOld, cardNew])
    ∧ (∀ c, c ∈ CardListView_get_queryset false [cardOld, cardNew]
        ↔ c ∈ [cardOld, cardNew] ∧ c.«private» = false) :=
  ⟨by decide,
   ((cardList_queryset_visibility [cardOld, cardNew] true).1 rfl).1 cardNew
     |>.mpr (by decide),
   (cardList_queryset_visibility [cardOld, cardNew] false).2 rfl⟩

/-- C4: for an authenticated viewer (whose profile row is `vp`), the
redirect URL is the permission-denied page exactly when the requested
profile is private and owned by someone else, and the profile's detail page
in every other case.  The Nodup hypotheses state primary-key uniqueness and
the one-to-one user/profile relation. -/
theorem profileRedirect_private_gates_non_owners
    (db : List UserProfile) (viewer : AuthUser) (vp p : UserProfile)
    (hpk : (db.map UserProfile.pk).Nodup)
    (huser : (db.map (fun q => q.user.pk)).Nodup)
    (hvp : db.find? (fun q => q.user.pk == viewer.pk) = some vp)
    (hp : p ∈ db) :
    (p.«private» = true ∧ p.user.pk ≠ viewer.pk →
        get_redirect_url db vp.pk p.pk = some ProfileRedirect.permission_denied)
    ∧ (p.«private» = false ∨ p.user.pk = viewer.pk →
        get_redirect_url db vp.pk p.pk = some (ProfileRedirect.detail p.pk)) := by
  have hvp_mem : vp ∈ db := List.mem_of_find?_eq_some hvp
  have hvp_user : vp.user.pk = viewer.pk := by
    have h := List.find?_some hvp
    exact eq_of_beq h
  have hfind : db.find? (fun q => q.pk == p.pk) = some p :=
    find?_key_eq_some UserProfile.pk db p hp hpk
  constructor
  · rintro ⟨hpriv, howner⟩
    have hne : p.pk ≠ vp.pk := by
      intro hcontra
      have : p = vp := key_inj_of_nodup UserProfile.pk db hpk p vp hp hvp_mem hcontra
      exact howner (this ▸ hvp_user)
    unfold get_redirect_url
    rw [hfind]
    simp [hpriv, hne]
  · intro hcase
    unfold get_redirect_url
    rw [hfind]
    rcases hcase with hpub | howner
    · simp [hpub]
    · have : p = vp :=
        key_inj_of_nodup (fun q => q.user.pk) db huser p vp hp hvp_mem
          (howner.trans hvp_user.symm)
      rcases hb : p.«private» with _ | _
      · simp [hb]
      · simp [hb, this]

/-- A concrete user who owns `profileMine`. -/
def userMe : AuthUser := { pk := 1, username := "me" }

/-- A concrete second user who owns `profileOther`. -/
def userOther : AuthUser := { pk := 2, username := "other" }

/-- The viewer's own (public) profile row. -/
def profileMine : UserProfile := { pk := 10, user := userMe }

/-- A private profile row owned by `userOther`. -/
def profileOther : UserProfile :=
  { pk := 20, user := userOther, «private» := true }

/-- Witness for C4: on a concrete two-profile table, the authenticated
viewer `userMe` is denied the other user's private profile and shown their
own. -/
theorem profileRedirect_private_gates_non_owners_witness :
    get_redirect_url [profileMine, profileOther] profileMine.pk profileOther.pk
      = some ProfileRedirect.permission_denied
    ∧ get_redirect_url [profileMine, profileOther] profileMine.pk profileMine.pk
      = some (ProfileRedirect.detail profileMine.pk) :=
  ⟨(profileRedirect_private_gates_non_owners [profileMine, profileOther]
      userMe profileMine profileOther (by decide) (by decide) (by decide)
      (by decide)).1 ⟨rfl, by decide⟩,
   (profileRedirect_private_gates_non_owners [profileMine, profileOther]
      userMe profileMine profileMine (by decide) (by decide) (by decide)
      (by decide)).2 (Or.inl rfl)⟩

/-- C6 counterexample: an authenticated viewer (`userMe`) requesting another
user's private profile through the profile redirect view is sent to the
permission-denied page, not the detail page — refuting "authenticated
visitors always see everything / are never sent to a denial page". -/
theorem visibility_claim_counterexample :
    profile_redirect_view [profileMine, profileOther] true userMe
        profileOther.pk
      = some ProfileRedirect.permission_denied
    ∧ some ProfileRedirect.permission_denied
        ≠ some (ProfileRedirect.detail profileOther.pk) := by
  exact ⟨by decide, by decide⟩

/-- C6 amended: for cards the private flag gates only unauthenticated
visitors (an authenticated visitor is always shown any card's detail page,
an unauthenticated visitor is denied exactly the private cards); for
profiles, the redirect view sends every unauthenticated visitor to the
login-required page, and sends an authenticated viewer to the
permission-denied page exactly for a private profile owned by someone
else. -/
theorem visibility_amended :
    (∀ card : BingoCard, CardDetailView_get true card = CardResponse.rendered card.pk)
    ∧ (∀ card : BingoCard,
        CardDetailView_get false card = CardResponse.redirect_unauthorized
          ↔ card.«private» = true)
    ∧ (∀ (db : List UserProfile) (viewer : AuthUser) (pk : Nat),
        profile_redirect_view db false viewer pk
          = some ProfileRedirect.login_required)
    ∧ (∀ (db : List UserProfile) (viewer : AuthUser) (vp p : UserProfile),
        (db.map UserProfile.pk).Nodup →
        (db.map (fun q => q.user.pk)).Nodup →
        db.find? (fun q => q.user.pk == viewer.pk) = some vp →
        p ∈ db →
        (profile_redirect_view db true viewer p.pk
            = some ProfileRedirect.permission_denied
          ↔ p.«private» = true ∧ p.user.pk ≠ viewer.pk)) := by
  refine ⟨fun card => ?_, fun card => ?_, fun db viewer pk => rfl,
    fun db viewer vp p hpk huser hvp hp => ?_⟩
  · simp [CardDetailView_get]
  · rcases hb : card.«private» with _ | _ <;> simp [CardDetailView_get, hb]
  · have hview : profile_redirect_view db true viewer p.pk
        = get_redirect_url db vp.pk p.pk := by
      unfold profile_redirect_view
      rw [hvp]
      rfl
    rw [hview]
    constructor
    · intro hdenied
      by_contra hcontra
      rw [not_and_or] at hcontra
      have hfind : db.find? (fun q => q.pk == p.pk) = some p :=
        find?_key_eq_some UserProfile.pk db p hp hpk
      rcases hcontra with hpub | howner
      · have hpub : p.«private» = false := by
          rcases hb : p.«private» with _ | _
          · rfl
          · exact absurd hb hpub
        unfold get_redirect_url at hdenied
        rw [hfind] at hdenied
        simp [hpub] at hdenied
      · rw [not_ne_iff] at howner
        have hvp_mem : vp ∈ db := List.mem_of_find?_eq_some hvp
        have hvp_user : vp.user.pk = viewer.pk := by
          have h := List.find?_some hvp
          exact eq_of_beq h
        have hpvp : p = vp :=
          key_inj_of_nodup (fun q => q.user.pk) db huser p vp hp hvp_mem
            (howner.trans hvp_user.symm)
        unfold get_redirect_url at hdenied
        rw [hfind] at hdenied
        rcases hb : p.«private» with _ | _ <;> simp [hb, hpvp] at hdenied
    · intro hcase
      exact (profileRedirect_private_gates_non_owners db viewer vp p hpk
        huser hvp hp).1 hcase


/-- Witness for the amended C6 statement: applies it on the concrete
two-profile table, discharging the uniqueness and lookup hypotheses. -/
theorem visibility_amended_witness :
    profile_redirect_view [profileMine, profileOther] true userMe
        profileOther.pk
      = some ProfileRedirect.permission_denied
    ↔ profileOther.«private» = true ∧ profileOther.user.pk ≠ userMe.pk :=
  visibility_amended.2.2.2 [profileMine, profileOther] userMe profileMine
    profileOther (by decide) (by decide) (by decide) (by decide)

/-! ## The card/square table and the card creation and editing operations
(claims C1, C7) -/

/-- The card tables of the database. -/
structure DB where
  cards : List BingoCard
  squares : List BingoCardSquare
  deriving Repr, DecidableEq

/-- The autoincrement primary key the database hands to a newly inserted
row: one more than the largest key in use. -/
def next_pk (keys : List Nat) : Nat :=
  keys.foldr max 0 + 1

/-- The card's squares: the reverse FK lookup `card.squares.all()`. -/
def squaresOf (db : DB) (card_pk : Nat) : List BingoCardSquare :=
  db.squares.filter (fun s => s.card == card_pk)

/-- cards/forms.py BingoCardForm fields ('title', 'free_space', 'creator',
'private'). -/
structure CardFormData where
  title : String
  free_space : String
  creator : Nat
  «private» : Bool
  deriving Repr, DecidableEq

/-- cards/forms.py BingoSquareFormset validity: `inlineformset_factory(...,
min_num=24, max_num=24, validate_min=True, validate_max=True)` over
BingoSquareForm, whose `text` CharField is required — valid exactly when 24
forms with non-empty text are submitted. -/
def formset_is_valid (texts : List String) : Bool :=
  texts.length == 24 && texts.all (fun t => !t.isEmpty)

/-- `form.save()` in CardCreateView.form_valid: insert a BingoCard row with
the form's fields; the model's save() fills the slug; the database assigns
the next primary key and `created_date` defaults to today (`now`). -/
def form_save (cards : List BingoCard) (data : CardFormData) (now : Nat) :
    BingoCard :=
  BingoCard.save
    { pk := next_pk (cards.map BingoCard.pk), title := data.title,
      free_space := data.free_space, created_date := now,
      creator := data.creator, «private» := data.«private» }

/-- `square_formset.save()` with `instance` set to the card with key
`card_pk`: insert one BingoCardSquare row per form, FK'd to the card. -/
def formset_save (db : DB) (card_pk : Nat) (texts : List String)
    (now : Nat) : List BingoCardSquare :=
  texts.enum.map (fun it =>
    { pk := next_pk (db.squares.map BingoCardSquare.pk) + it.1,
      text := it.2, card := card_pk, created_date := now })

/-- cards/views.py CardCreateView.form_valid: inside `transaction.atomic()`
the card row is saved unconditionally, and the squares are saved only when
the formset validates.  No exception is raised on the invalid branch, so the
transaction commits either way (atomic rolls back only on an exception). -/
def CardCreateView_form_valid (db : DB) (data : CardFormData)
    (texts : List String) (now : Nat) : DB :=
  let card := form_save db.cards data now
  let db1 : DB := { db with cards := db.cards ++ [card] }
  if formset_is_valid texts then
    { db1 with squares := db1.squares ++ formset_save db card.pk texts now }
  else
    db1

/-- api/serializers.py BingoCardSerializer.create: pick the free-space text
(`validated_data.get('free_space')` is falsy for both an absent key and an
empty string), create the card, then create one square per validated entry,
FK'd to the new card. -/
def BingoCardSerializer_create (db : DB) (creator : Nat) (title : String)
    (free_space : Option String) (squares : List SquareData) (now : Nat) :
    DB :=
  let fs := match free_space with
    | some s => if s.isEmpty then "Free Space" else s
    | none => "Free Space"
  let card := BingoCard.save
    { pk := next_pk (db.cards.map BingoCard.pk), title := title,
      free_space := fs, created_date := now, creator := creator }
  let db1 : DB := { db with cards := db.cards ++ [card] }
  { db1 with
    squares := db1.squares ++ squares.enum.map (fun it =>
      { pk := next_pk (db.squares.map BingoCardSquare.pk) + it.1,
        text := it.2.text, card := card.pk, created_date := now }) }

/-- api/views.py BingoCardList POST: IsAuthenticatedOrReadOnly rejects
unauthenticated writes; otherwise the serializer validates (in particular
validate_squares) and `perform_create` saves with the requester as creator.
The Bool records whether a card was created. -/
def bingo_card_list_post (db : DB) (is_authenticated : Bool) (creator : Nat)
    (title : String) (free_space : Option String)
    (squares : List SquareData) (now : Nat) : DB × Bool :=
  if !is_authenticated then
    (db, false)
  else
    match validate_squares squares with
    | Except.error _ => (db, false)
    | Except.ok sqs =>
      (BingoCardSerializer_create db creator title free_space sqs now, true)

/-- The square loop of BingoCardSerializer.update: walk the table, and for
the `index`-th square belonging to the card set its text to
`new_squares[index]['text']` (out-of-range indices raise IndexError in
Python, aborting with the texts updated so far; either way no square row is
added or removed, which is all the count argument uses). -/
def update_card_squares (card_pk : Nat) (new_squares : List SquareData) :
    Nat → List BingoCardSquare → List BingoCardSquare
  | _, [] => []
  | i, s :: rest =>
    if s.card == card_pk then
      (match new_squares[i]? with
        | some nd => { s with text := nd.text }
        | none => s) :: update_card_squares card_pk new_squares (i + 1) rest
    else
      s :: update_card_squares card_pk new_squares i rest

/-- api/serializers.py BingoCardSerializer.update: set the updated fields on
the instance, save it (recomputing the slug), and rewrite the texts of the
card's squares pairwise; squares are never created or deleted here. -/
def BingoCardSerializer_update (db : DB) (card_pk : Nat)
    (title free_space : Option String) (new_squares : List SquareData) :
    DB :=
  { cards := db.cards.map (fun c =>
      if c.pk == card_pk then
        BingoCard.save
          { c with title := title.getD c.title,
                   free_space := free_space.getD c.free_space }
      else c),
    squares := update_card_squares card_pk new_squares 0 db.squares }

/-- api/views.py BingoCardSquareDetail DELETE: IsAuthenticatedOrReadOnly
rejects unauthenticated writes; an authenticated requester deletes the
square row with the given pk.  The Bool records whether the delete ran. -/
def BingoCardSquareDetail_delete (db : DB) (is_authenticated : Bool)
    (pk : Nat) : DB × Bool :=
  if !is_authenticated then
    (db, false)
  else
    ({ db with squares := db.squares.filter (fun s => !(s.pk == pk)) }, true)

/-! ## Freshness and counting lemmas -/

/-- Every key in the list is bounded by the running maximum. -/
theorem le_foldr_max (keys : List Nat) : ∀ k ∈ keys, k ≤ keys.foldr max 0 := by
  induction keys with
  | nil => intro k hk; cases hk
  | cons x xs ih =>
    intro k hk
    rcases List.mem_cons.mp hk with h | h
    · rw [List.foldr_cons, h]
      exact Nat.le_max_left x (xs.foldr max 0)
    · rw [List.foldr_cons]
      exact Nat.le_trans (ih k h) (Nat.le_max_right x (xs.foldr max 0))

/-- The autoincrement key is fresh. -/
theorem next_pk_not_mem (keys : List Nat) : next_pk keys ∉ keys := by
  intro h
  have := le_foldr_max keys _ h
  simp only [next_pk] at this
  exact Nat.not_succ_le_self _ this

/-- Under FK integrity, no existing square points at a fresh card key. -/
theorem filter_fresh_nil (db : DB) (cpk : Nat)
    (hint : ∀ sq ∈ db.squares, sq.card ∈ db.cards.map BingoCard.pk)
    (hfresh : cpk ∉ db.cards.map BingoCard.pk) :
    db.squares.filter (fun s => s.card == cpk) = [] := by
  rw [List.filter_eq_nil_iff]
  intro a ha h
  exact hfresh ((eq_of_beq h) ▸ hint a ha)

/-- Appending rows that all point at `cpk` to a table with no `cpk` rows
makes the `cpk` lookup exactly the new rows. -/
theorem filter_append_new (l new : List BingoCardSquare) (cpk : Nat)
    (hl : l.filter (fun s => s.card == cpk) = [])
    (hnew : ∀ s ∈ new, s.card = cpk) :
    (l ++ new).filter (fun s => s.card == cpk) = new := by
  rw [List.filter_append, hl, List.nil_append, List.filter_eq_self]
  intro a ha
  exact beq_iff_eq.mpr (hnew a ha)

/-- The text-rewriting loop of the serializer update never changes how many
squares of any card exist. -/
theorem update_card_squares_filter_len (k : Nat) (nd : List SquareData)
    (c : Nat) :
    ∀ (i : Nat) (l : List BingoCardSquare),
      ((update_card_squares k nd i l).filter (fun s => s.card == c)).length
        = (l.filter (fun s => s.card == c)).length := by
  intro i l
  induction l generalizing i with
  | nil => rfl
  | cons s rest ih =>
    simp only [update_card_squares]
    by_cases h : (s.card == k) = true
    · rw [if_pos h]
      cases hg : nd[i]? with
      | none =>
        rw [List.filter_cons, List.filter_cons]
        by_cases hc : (s.card == c) = true <;> simp [hc, ih]
      | some nd0 =>
        rw [List.filter_cons, List.filter_cons]
        by_cases hc : (s.card == c) = true <;> simp [hc, ih]
    · rw [if_neg h]
      rw [List.filter_cons, List.filter_cons]
      by_cases hc : (s.card == c) = true <;> simp [hc, ih]

/-- Deleting by square pk commutes with the per-card lookup. -/
theorem squaresOf_delete (db : DB) (pk c : Nat) :
    squaresOf { db with squares := db.squares.filter (fun s => !(s.pk == pk)) } c
      = (squaresOf db c).filter (fun s => !(s.pk == pk)) := by
  unfold squaresOf
  simp only [List.filter_filter]
  apply List.filter_congr
  intro x _
  exact Bool.and_comm _ _


/-- The rows `formset_save` inserts all point at the card and carry exactly
the submitted texts. -/
theorem formset_save_card_and_texts (db : DB) (card_pk : Nat)
    (texts : List String) (now : Nat) :
    (∀ s ∈ formset_save db card_pk texts now, s.card = card_pk)
    ∧ (formset_save db card_pk texts now).map BingoCardSquare.text = texts := by
  constructor
  · intro s hs
    rcases List.mem_map.mp hs with ⟨it, _, rfl⟩
    rfl
  · unfold formset_save
    rw [List.map_map]
    have h : (BingoCardSquare.text ∘ fun it : Nat × String =>
        ({ pk := next_pk (db.squares.map BingoCardSquare.pk) + it.1,
           text := it.2, card := card_pk,
           created_date := now } : BingoCardSquare)) = Prod.snd := rfl
    rw [h, List.enum_map_snd]

/-- A valid formset has exactly 24 entries. -/
theorem formset_is_valid_length (texts : List String)
    (h : formset_is_valid texts = true) : texts.length = 24 := by
  have h1 := (Bool.and_eq_true _ _).mp h
  have h2 := h1.1
  exact eq_of_beq h2

/-- C1 counterexample: submitting a card form together with an invalid
square formset (here: zero square forms) to CardCreateView.form_valid
commits the card row with no square rows at all — the database is not left
unchanged, and a card is persisted without its squares. -/
theorem cardCreate_invalid_formset_persists_card :
    formset_is_valid [] = false
    ∧ CardCreateView_form_valid ⟨[], []⟩ ⟨"T", "F", 1, false⟩ [] 0 ≠ (⟨[], []⟩ : DB)
    ∧ (CardCreateView_form_valid ⟨[], []⟩ ⟨"T", "F", 1, false⟩ [] 0).cards.length = 1
    ∧ squaresOf (CardCreateView_form_valid ⟨[], []⟩ ⟨"T", "F", 1, false⟩ [] 0)
        (next_pk []) = [] := by
  refine ⟨rfl, by decide, rfl, rfl⟩

/-- C1 amended: inside the atomic block the card row is always saved; when
the square formset is valid the card and its 24 squares (carrying exactly
the submitted texts) persist together, but when the formset is invalid the
card is still committed, with no squares — the transaction only rolls back
on an exception, which the invalid branch does not raise.  `hint` is FK
integrity of the starting database. -/
theorem cardCreate_atomic_amended (db : DB) (data : CardFormData)
    (texts : List String) (now : Nat)
    (hint : ∀ sq ∈ db.squares, sq.card ∈ db.cards.map BingoCard.pk) :
    (formset_is_valid texts = true →
        (CardCreateView_form_valid db data texts now).cards
            = db.cards ++ [form_save db.cards data now]
        ∧ (squaresOf (CardCreateView_form_valid db data texts now)
            (form_save db.cards data now).pk).map BingoCardSquare.text = texts
        ∧ texts.length = 24)
    ∧ (formset_is_valid texts = false →
        (CardCreateView_form_valid db data texts now).cards
            = db.cards ++ [form_save db.cards data now]
        ∧ (CardCreateView_form_valid db data texts now).squares = db.squares
        ∧ squaresOf (CardCreateView_form_valid db data texts now)
            (form_save db.cards data now).pk = []) := by
  have hpk : (form_save db.cards data now).pk
      = next_pk (db.cards.map BingoCard.pk) := rfl
  have hnil : db.squares.filter
      (fun s => s.card == (form_save db.cards data now).pk) = [] := by
    rw [hpk]
    exact filter_fresh_nil db _ hint (next_pk_not_mem _)
  constructor
  · intro hv
    have hdb : CardCreateView_form_valid db data texts now
        = { cards := db.cards ++ [form_save db.cards data now],
            squares := db.squares
              ++ formset_save db (form_save db.cards data now).pk texts now } := by
      simp [CardCreateView_form_valid, hv]
    refine ⟨by rw [hdb], ?_, formset_is_valid_length texts hv⟩
    rw [hdb]
    unfold squaresOf
    rw [filter_append_new _ _ _ hnil
      (formset_save_card_and_texts db _ texts now).1]
    exact (formset_save_card_and_texts db _ texts now).2
  · intro hv
    have hdb : CardCreateView_form_valid db data texts now
        = { cards := db.cards ++ [form_save db.cards data now],
            squares := db.squares } := by
      simp [CardCreateView_form_valid, hv]
    refine ⟨by rw [hdb], by rw [hdb], ?_⟩
    rw [hdb]
    unfold squaresOf
    exact hnil

/-- 24 non-empty square texts for exercising the create paths. -/
def texts24 : List String :=
  (List.range 24).map (fun i => "square " ++ toString i)

/-- Witness for the amended C1 statement on an empty database with a valid
24-form formset. -/
theorem cardCreate_atomic_amended_witness :
    (CardCreateView_form_valid ⟨[], []⟩ ⟨"T", "F", 1, false⟩ texts24 0).cards
        = [] ++ [form_save [] ⟨"T", "F", 1, false⟩ 0]
    ∧ (squaresOf (CardCreateView_form_valid ⟨[], []⟩ ⟨"T", "F", 1, false⟩ texts24 0)
        (form_save [] ⟨"T", "F", 1, false⟩ 0).pk).map BingoCardSquare.text
        = texts24
    ∧ texts24.length = 24 :=
  (cardCreate_atomic_amended ⟨[], []⟩ ⟨"T", "F", 1, false⟩ texts24 0
    (by intro sq hsq; exact absurd hsq (List.not_mem_nil sq))).1 (by decide)


/-- The concrete database holding `sampleCard` with its 24 squares. -/
def sampleDB : DB :=
  { cards := [sampleCard], squares := sampleSquares }

/-- C7 counterexample: an authenticated DELETE on the routed square detail
endpoint removes one of the 24 squares of `sampleCard`, leaving the card
with 23 — an exposed operation changes a card's square count away from
24. -/
theorem squareDelete_breaks_24_invariant :
    (squaresOf sampleDB sampleCard.pk).length = 24
    ∧ (squaresOf (BingoCardSquareDetail_delete sampleDB true 1).1
        sampleCard.pk).length = 23 := by
  exact ⟨by decide, by decide⟩

/-- The square rows `BingoCardSerializer.create` inserts all point at the
new card. -/
theorem serializer_create_squares_card (db : DB) (creator : Nat)
    (title : String) (free_space : Option String) (squares : List SquareData)
    (now : Nat) :
    ∀ s ∈ squares.enum.map (fun it : Nat × SquareData =>
        ({ pk := next_pk (db.squares.map BingoCardSquare.pk) + it.1,
           text := it.2.text, card := next_pk (db.cards.map BingoCard.pk),
           created_date := now } : BingoCardSquare)),
      s.card = next_pk (db.cards.map BingoCard.pk) := by
  intro s hs
  rcases List.mem_map.mp hs with ⟨it, _, rfl⟩
  rfl

/-- C7 amended: every card created through the public interfaces with valid
input has exactly 24 squares — the HTML create view with a valid formset,
and the REST card-create endpoint whenever it creates at all — and the REST
card update never changes any card's square count; but the HTML create view
commits a squareless card when the formset is invalid, and an authenticated
DELETE on the square detail endpoint strictly decreases the owning card's
square count.  `hint` is FK integrity of the starting database. -/
theorem card_square_count_amended (db : DB) (data : CardFormData)
    (texts : List String) (creator : Nat) (title : String)
    (fs : Option String) (sqs : List SquareData) (now : Nat)
    (card_pk spk : Nat) (t f : Option String) (nd : List SquareData)
    (s : BingoCardSquare)
    (hint : ∀ sq ∈ db.squares, sq.card ∈ db.cards.map BingoCard.pk) :
    (formset_is_valid texts = true →
        (squaresOf (CardCreateView_form_valid db data texts now)
          (next_pk (db.cards.map BingoCard.pk))).length = 24)
    ∧ ((bingo_card_list_post db true creator title fs sqs now).2 = true →
        (squaresOf (bingo_card_list_post db true creator title fs sqs now).1
          (next_pk (db.cards.map BingoCard.pk))).length = 24)
    ∧ (squaresOf (BingoCardSerializer_update db card_pk t f nd) spk).length
        = (squaresOf db spk).length
    ∧ (formset_is_valid texts = false →
        squaresOf (CardCreateView_form_valid db data texts now)
          (next_pk (db.cards.map BingoCard.pk)) = []
        ∧ (CardCreateView_form_valid db data texts now).cards.length
            = db.cards.length + 1)
    ∧ (s ∈ db.squares →
        (squaresOf (BingoCardSquareDetail_delete db true s.pk).1 s.card).length
          < (squaresOf db s.card).length) := by
  have hnil : db.squares.filter
      (fun sq => sq.card == next_pk (db.cards.map BingoCard.pk)) = [] :=
    filter_fresh_nil db _ hint (next_pk_not_mem _)
  refine ⟨?_, ?_, ?_, ?_, ?_⟩
  · intro hv
    have hdb : CardCreateView_form_valid db data texts now
        = { cards := db.cards ++ [form_save db.cards data now],
            squares := db.squares
              ++ formset_save db (next_pk (db.cards.map BingoCard.pk))
                  texts now } := by
      simp [CardCreateView_form_valid, hv]
      rfl
    rw [hdb]
    unfold squaresOf
    rw [filter_append_new _ _ _ hnil
      (formset_save_card_and_texts db _ texts now).1]
    unfold formset_save
    rw [List.length_map, List.enum_length]
    exact formset_is_valid_length texts hv
  · intro hflag
    by_cases h24 : sqs.length = 24
    · have hval : validate_squares sqs = Except.ok sqs := by
        simp [validate_squares, h24]
      have hpost : bingo_card_list_post db true creator title fs sqs now
          = (BingoCardSerializer_create db creator title fs sqs now, true) := by
        simp [bingo_card_list_post, hval]
      rw [hpost]
      have hsq : (BingoCardSerializer_create db creator title fs sqs now).squares
          = db.squares ++ sqs.enum.map (fun it : Nat × SquareData =>
              { pk := next_pk (db.squares.map BingoCardSquare.pk) + it.1,
                text := it.2.text,
                card := next_pk (db.cards.map BingoCard.pk),
                created_date := now }) := rfl
      unfold squaresOf
      rw [hsq]
      rw [filter_append_new _ _ _ hnil
        (serializer_create_squares_card db creator title fs sqs now)]
      rw [List.length_map, List.enum_length]
      exact h24
    · have hval : validate_squares sqs
          = Except.error "Must have exactly 24 squares" := by
        simp [validate_squares, h24]
      have hpost : bingo_card_list_post db true creator title fs sqs now
          = (db, false) := by
        simp [bingo_card_list_post, hval]
      rw [hpost] at hflag
      cases hflag
  · unfold BingoCardSerializer_update squaresOf
    exact update_card_squares_filter_len card_pk nd spk 0 db.squares
  · intro hv
    have hdb : CardCreateView_form_valid db data texts now
        = { cards := db.cards ++ [form_save db.cards data now],
            squares := db.squares } := by
      simp [CardCreateView_form_valid, hv]
    rw [hdb]
    exact ⟨hnil, by simp⟩
  · intro hs
    have hdel : (BingoCardSquareDetail_delete db true s.pk).1
        = { db with squares := db.squares.filter (fun sq => !(sq.pk == s.pk)) } :=
      rfl
    rw [hdel, squaresOf_delete]
    apply List.length_filter_lt_length_iff_exists.mpr
    refine ⟨s, ?_, by simp⟩
    unfold squaresOf
    exact List.mem_filter.mpr ⟨hs, by simp⟩

/-- The first square row of `sampleDB`. -/
def firstSquare : BingoCardSquare :=
  { pk := 1, text := "0", card := 1 }

/-- Witness for the amended C7 statement: concrete applications on
`sampleDB` (valid formset creation; REST creation of a second card;
deletion of the first square). -/
theorem card_square_count_amended_witness :
    (squaresOf (CardCreateView_form_valid sampleDB ⟨"T", "F", 1, false⟩ texts24 0)
        (next_pk (sampleDB.cards.map BingoCard.pk))).length = 24
    ∧ ((bingo_card_list_post sampleDB true 1 "T2" none
          (List.replicate 24 ⟨"x"⟩) 0).2 = true →
        (squaresOf (bingo_card_list_post sampleDB true 1 "T2" none
            (List.replicate 24 ⟨"x"⟩) 0).1
          (next_pk (sampleDB.cards.map BingoCard.pk))).length = 24)
    ∧ (squaresOf (BingoCardSquareDetail_delete sampleDB true
          firstSquare.pk).1 firstSquare.card).length
        < (squaresOf sampleDB firstSquare.card).length := by
  have h := card_square_count_amended sampleDB ⟨"T", "F", 1, false⟩ texts24 1
    "T2" none (List.replicate 24 ⟨"x"⟩) 0 1 1 none none [] firstSquare
    (by decide)
  exact ⟨h.1 (by decide), h.2.1, h.2.2.2.2 (by decide)⟩


/-! ## api views for Contact (claim C8) -/

/-- The requester of a REST call. -/
structure Requester where
  is_authenticated : Bool
  is_staff : Bool
  deriving Repr, DecidableEq

/-- Modelled from the spec: the repository's Django settings module (and any
REST_FRAMEWORK DEFAULT_PERMISSION_CLASSES override it could contain) is not
under src/.  api/views.py ContactList and ContactDetail declare no
permission_classes, the spec describes permissions only as per-view
permission classes, and the framework's documented default permission
admits every requester — so the routed contact endpoints check nothing
about the requester. -/
def default_permission_allows (_ : Requester) : Bool :=
  true

/-- api/views.py ContactList POST (`ListCreateAPIView`, no
permission_classes): create a Contact row; the read-only `id` is assigned
by the database. -/
def ContactList_post (req : Requester) (db : List Contact) (data : Contact) :
    List Contact × Bool :=
  if default_permission_allows req then
    (db ++ [{ data with pk := next_pk (db.map Contact.pk) }], true)
  else
    (db, false)

/-- api/views.py ContactDetail PUT (`RetrieveUpdateDestroyAPIView`, no
permission_classes): overwrite the writable fields of the row with the
given pk. -/
def ContactDetail_put (req : Requester) (db : List Contact) (pk : Nat)
    (data : Contact) : List Contact × Bool :=
  if default_permission_allows req then
    (db.map (fun c => if c.pk == pk then { data with pk := c.pk } else c), true)
  else
    (db, false)

/-- api/views.py ContactDetail DELETE: remove the row with the given pk. -/
def ContactDetail_delete (req : Requester) (db : List Contact) (pk : Nat) :
    List Contact × Bool :=
  if default_permission_allows req then
    (db.filter (fun c => !(c.pk == pk)), true)
  else
    (db, false)

/-- The actions a ReadOnlyModelViewSet exposes: list and retrieve only. -/
inductive ReadAction where
  | list
  | retrieve (pk : Nat)
  deriving Repr, DecidableEq

/-- api/viewsets.py ContactViewSet (`ReadOnlyModelViewSet`, not routed in
api/urls.py): serves reads and never writes the table. -/
def ContactViewSet_handle (req : Requester) (db : List Contact)
    (a : ReadAction) : List Contact × Option (List Contact) :=
  match a with
  | ReadAction.list => (db, some db)
  | ReadAction.retrieve pk =>
    (db, (db.find? (fun c => c.pk == pk)).map (fun c => [c]))

/-- The site owner's stored contact row. -/
def contactRow : Contact :=
  { pk := 1, title := "links", email := "owner@example.com" }

/-- A defaced payload for the contact row. -/
def defacedRow : Contact :=
  { pk := 1, title := "defaced" }

/-- C8 counterexample: an unauthenticated, non-staff requester PUTs to the
routed contact detail endpoint and the Contact row changes — the record is
not editable only by site administrators. -/
theorem contact_admin_only_counterexample :
    (ContactDetail_put ⟨false, false⟩ [contactRow] 1 defacedRow).1
        ≠ [contactRow]
    ∧ (ContactDetail_put ⟨false, false⟩ [contactRow] 1 defacedRow).2 = true := by
  exact ⟨by decide, rfl⟩

/-- C8 amended: the unrouted ContactViewSet is read-only (it never changes
the Contact table), but the routed contact endpoints (ContactList POST,
ContactDetail PUT/DELETE) consult nothing about the requester: any visitor,
staff or not, authenticated or not, observes the identical write — in
particular a PUT replaces the addressed row and a DELETE purges its pk. -/
theorem contact_endpoints_unrestricted :
    (∀ (req : Requester) (db : List Contact) (a : ReadAction),
        (ContactViewSet_handle req db a).1 = db)
    ∧ (∀ (req req' : Requester) (db : List Contact) (pk : Nat) (data : Contact),
        ContactDetail_put req db pk data = ContactDetail_put req' db pk data
        ∧ ContactDetail_delete req db pk = ContactDetail_delete req' db pk
        ∧ ContactList_post req db data = ContactList_post req' db data)
    ∧ (∀ (req : Requester) (db : List Contact) (pk : Nat) (data : Contact)
          (c : Contact), c ∈ db → c.pk = pk →
        { data with pk := pk } ∈ (ContactDetail_put req db pk data).1)
    ∧ (∀ (req : Requester) (db : List Contact) (pk : Nat),
        ∀ c ∈ (ContactDetail_delete req db pk).1, c.pk ≠ pk) := by
  refine ⟨?_, ?_, ?_, ?_⟩
  · intro req db a
    cases a <;> rfl
  · intro req req' db pk data
    exact ⟨rfl, rfl, rfl⟩
  · intro req db pk data c hc hpk
    have hput : (ContactDetail_put req db pk data).1
        = db.map (fun c => if c.pk == pk then { data with pk := c.pk } else c) :=
      rfl
    rw [hput]
    have himg : ({ data with pk := pk } : Contact)
        = (fun c : Contact =>
            if c.pk == pk then { data with pk := c.pk } else c) c := by
      simp [hpk]
    rw [himg]
    exact List.mem_map_of_mem _ hc
  · intro req db pk c hc
    have hdel : (ContactDetail_delete req db pk).1
        = db.filter (fun c => !(c.pk == pk)) := rfl
    rw [hdel] at hc
    have := (List.mem_filter.mp hc).2
    simpa using this

/-- Witness for the amended C8 statement: applies it on the concrete
one-row contact table, discharging the membership hypotheses. -/
theorem contact_endpoints_unrestricted_witness :
    ({ defacedRow with pk := 1 } : Contact)
      ∈ (ContactDetail_put ⟨false, false⟩ [contactRow] 1 defacedRow).1 :=
  contact_endpoints_unrestricted.2.2.1 ⟨false, false⟩ [contactRow] 1
    defacedRow contactRow (by decide) rfl


/-! ## home/forms.py ContactForm (claim C9) -/

/-- The submitted contact-form fields: name, email, subject and message are
required CharFields (with max lengths 100, 50, 100, unbounded), cc_myself
an optional checkbox. -/
structure ContactFormData where
  name : String
  email : String
  subject : String
  message : String
  cc_myself : Bool
  deriving Repr, DecidableEq

/-- The framework's EmailField acceptance, at the level this development
needs: a non-empty address containing an '@'. -/
def email_well_formed (e : String) : Bool :=
  !e.isEmpty && e.data.contains '@'

/-- ContactForm.is_valid(): every required field present (non-empty) within
its max_length, and the email address well-formed. -/
def ContactForm_is_valid (f : ContactFormData) : Bool :=
  (!f.name.isEmpty && decide (f.name.length ≤ 100))
    && (email_well_formed f.email && decide (f.email.length ≤ 50))
    && (!f.subject.isEmpty && decide (f.subject.length ≤ 100))
    && !f.message.isEmpty

/-- django.core.mail.EmailMessage, with the fields send_email sets. -/
structure EmailMessage where
  subject : String
  «to» : List String
  body : String
  cc : List String := []
  deriving Repr, DecidableEq

/-- What ContactForm.send_email returns: the EmailMessage on success, the
form's errors dict otherwise. -/
inductive SendOutcome where
  | sent (msg : EmailMessage)
  | form_errors
  deriving Repr, DecidableEq

/-- home/forms.py ContactForm.send_email, as driven by
ContactView.form_valid: when the form validates, build one EmailMessage —
subject from the form, `to` the site owner's address, body
'Sender Name: {} \nSender Email: {}\n\n {}' formatted with name, email and
message, cc'ing the sender exactly when cc_myself was checked — and send
it; otherwise send nothing and return the errors.  The second component is
the list of emails actually dispatched. -/
def send_email (f : ContactFormData) : SendOutcome × List EmailMessage :=
  if ContactForm_is_valid f then
    let contact_email : EmailMessage :=
      { subject := f.subject,
        «to» := ["jesse.welborn@gmail.com"],
        body := "Sender Name: " ++ f.name ++ " \nSender Email: " ++ f.email
          ++ "\n\n " ++ f.message }
    let contact_email :=
      if f.cc_myself then { contact_email with cc := [f.email] }
      else contact_email
    (SendOutcome.sent contact_email, [contact_email])
  else
    (SendOutcome.form_errors, [])

/-- `needle` occurs contiguously inside `hay`. -/
def containsSub (needle hay : String) : Prop :=
  ∃ s t : List Char, hay.data = s ++ needle.data ++ t

/-- C9: a valid submission sends exactly one email, whose subject is the
submitted subject, whose body contains the submitted name, email address
and message, addressed to the site owner, cc'd to the sender's address
exactly when cc_myself was checked; an invalid submission sends nothing and
returns the form's errors. -/
theorem contact_form_send_email (f : ContactFormData) :
    (ContactForm_is_valid f = true →
      ∃ msg : EmailMessage,
        send_email f = (SendOutcome.sent msg, [msg])
        ∧ (send_email f).2.length = 1
        ∧ msg.subject = f.subject
        ∧ msg.«to» = ["jesse.welborn@gmail.com"]
        ∧ containsSub f.name msg.body
        ∧ containsSub f.email msg.body
        ∧ containsSub f.message msg.body
        ∧ (msg.cc = [f.email] ↔ f.cc_myself = true))
    ∧ (ContactForm_is_valid f = false →
        send_email f = (SendOutcome.form_errors, [])) := by
  constructor
  · intro hv
    have hname : containsSub f.name
        ("Sender Name: " ++ f.name ++ " \nSender Email: " ++ f.email
          ++ "\n\n " ++ f.message) := by
      refine ⟨"Sender Name: ".data,
        (" \nSender Email: " ++ f.email ++ "\n\n " ++ f.message).data, ?_⟩
      simp [String.data_append, List.append_assoc]
    have hemail : containsSub f.email
        ("Sender Name: " ++ f.name ++ " \nSender Email: " ++ f.email
          ++ "\n\n " ++ f.message) := by
      refine ⟨("Sender Name: " ++ f.name ++ " \nSender Email: ").data,
        ("\n\n " ++ f.message).data, ?_⟩
      simp [String.data_append, List.append_assoc]
    have hmsg : containsSub f.message
        ("Sender Name: " ++ f.name ++ " \nSender Email: " ++ f.email
          ++ "\n\n " ++ f.message) := by
      refine ⟨("Sender Name: " ++ f.name ++ " \nSender Email: " ++ f.email
        ++ "\n\n ").data, [], ?_⟩
      simp [String.data_append, List.append_assoc]
    by_cases hcc : f.cc_myself = true
    · refine ⟨{ subject := f.subject, «to» := ["jesse.welborn@gmail.com"],
                body := "Sender Name: " ++ f.name ++ " \nSender Email: "
                  ++ f.email ++ "\n\n " ++ f.message, cc := [f.email] },
        ?_, ?_, rfl, rfl, hname, hemail, hmsg, ?_⟩
      · simp [send_email, hv, hcc]
      · simp [send_email, hv, hcc]
      · simp [hcc]
    · have hcc' : f.cc_myself = false := by
        rcases hb : f.cc_myself with _ | _
        · rfl
        · exact absurd hb hcc
      refine ⟨{ subject := f.subject, «to» := ["jesse.welborn@gmail.com"],
                body := "Sender Name: " ++ f.name ++ " \nSender Email: "
                  ++ f.email ++ "\n\n " ++ f.message },
        ?_, ?_, rfl, rfl, hname, hemail, hmsg, ?_⟩
      · simp [send_email, hv, hcc']
      · simp [send_email, hv, hcc']
      · simp [hcc']
  · intro hv
    simp [send_email, hv]

/-- A concrete valid contact-form submission with cc_myself checked. -/
def sampleContactForm : ContactFormData :=
  { name := "Alice", email := "alice@example.com", subject := "Hi",
    message := "Hello there", cc_myself := true }

/-- Witness for C9 on the concrete valid submission. -/
theorem contact_form_send_email_witness :
    ∃ msg : EmailMessage,
      send_email sampleContactForm = (SendOutcome.sent msg, [msg])
      ∧ (send_email sampleContactForm).2.length = 1
      ∧ msg.subject = sampleContactForm.subject
      ∧ msg.«to» = ["jesse.welborn@gmail.com"]
      ∧ containsSub sampleContactForm.name msg.body
      ∧ containsSub sampleContactForm.email msg.body
      ∧ containsSub sampleContactForm.message msg.body
      ∧ (msg.cc = [sampleContactForm.email]
          ↔ sampleContactForm.cc_myself = true) :=
  (contact_form_send_email sampleContactForm).1 (by decide)

